import Mathlib

namespace Nshkmod

/-!
# nshkmod: forwarding table, ingress and egress of the NSH kernel module

A shallow embedding of `src/nshkmod.c`.  Pointers become `Option` values
(`none` is `NULL`), a dereference of `NULL` makes the enclosing function
return `none`, machine integers are natural numbers reduced modulo their
width, and the kernel services the module calls are collected in the
structure `Kernel`.
-/

/-! ## Constants of the source -/

def NSH_BASE_MDTYPE1 : Nat := 0x01

def NSH_BASE_MDTYPE2 : Nat := 0x02

def NSH_BASE_PROTO_IPV4 : Nat := 0x01

def NSH_BASE_PROTO_IPV6 : Nat := 0x02

def NSH_BASE_PROTO_ETH : Nat := 0x03

/-- The size of `struct udphdr`, from the kernel headers. -/
def sizeof_udphdr : Nat := 8

/-- The size of `struct vxlanhdr` (two 32-bit words), from the kernel headers. -/
def sizeof_vxlanhdr : Nat := 8

/-- The size of `struct nsh_base_hdr`: four bytes. -/
def sizeof_nsh_base_hdr : Nat := 4

/-- The size of `struct nsh_path_hdr`: one 32-bit word. -/
def sizeof_nsh_path_hdr : Nat := 4

def VXLAN_HLEN : Nat := sizeof_vxlanhdr + sizeof_udphdr

def NSH_MDTYPE2_0_HLEN : Nat := sizeof_nsh_base_hdr + sizeof_nsh_path_hdr

def NSH_VXLAN_PORT : Nat := 60000

def NSH_VXLAN_IPV4_HEADROOM : Nat := 16 + 8 + 16 + 16

def NSH_VXLAN_TTL : Nat := 64

def VXLAN_GPE_FLAGS : Nat := 0x0C000000

def VXLAN_GPE_PROTO_NSH : Nat := 0x04

def NSH_HASH_BITS : Nat := 8

def NSH_HASH_SIZE : Nat := 1 <<< NSH_HASH_BITS

def NETDEV_TX_OK : Int := 0

def ENOMEM : Int := 12

def NSH_ENCAP_TYPE_VXLAN : Nat := 0

def NSH_ENCAP_TYPE_ETH : Nat := 1

def NSH_ENCAP_TYPE_GRE : Nat := 2

def NSH_ENCAP_TYPE_GUE : Nat := 3

/-- The macro `NSH_BASE_CHECK_VERSION (f, v)`: `((f) & 0xC0) == v`. -/
def NSH_BASE_CHECK_VERSION (f v : Nat) : Bool := (f &&& 0xC0) == v

/-- The macro `NSH_BASE_OAM (f)`: `(f) & 0x20`. -/
def NSH_BASE_OAM (f : Nat) : Nat := f &&& 0x20

/-- The macro `NSH_BASE_CRITCAL (f)`: `(f) & 0x10`. -/
def NSH_BASE_CRITCAL (f : Nat) : Nat := f &&& 0x10

/-- The macro `NSH_BASE_LENGTH (l)`: `(l) & 0x3F`. -/
def NSH_BASE_LENGTH (l : Nat) : Nat := l &&& 0x3F

/-! ## Data model -/

/-- The remote node of a path, `struct nsh_dst`. -/
structure nsh_dst where
  encap_type : Nat
  vni : Nat
  remote_ip : Nat
  local_ip : Nat
deriving DecidableEq, Repr

/-- The pseudo network device, `struct nsh_dev`.  The field `dev` is the
identity of the `net_device` the structure is the private part of; the same
number identifies the `nsh_dev` itself where a table entry points at it. -/
structure nsh_dev where
  dev : Nat
  key : Nat
deriving DecidableEq, Repr

/-- A table entry, `struct nsh_table`: `rdev` and `rdst` are pointers, `none`
is `NULL`. -/
structure nsh_table where
  key : Nat
  spi : Nat
  si : Nat
  rdev : Option Nat
  rdst : Option nsh_dst
deriving DecidableEq, Repr

/-- The per namespace structure, `struct nsh_net`: the array of
`NSH_HASH_SIZE` bucket chains and the list of devices. -/
structure nsh_net where
  nsh_table : Fin NSH_HASH_SIZE → List nsh_table
  dev_list : List Nat

/-- The table of `nshkmod_init_net`: every chain empty, no device. -/
def nshkmod_init_net : nsh_net :=
  { nsh_table := fun _ => [], dev_list := [] }

/-- Replace the chain of one bucket. -/
def set_bucket (t : Fin NSH_HASH_SIZE → List nsh_table) (n : Fin NSH_HASH_SIZE)
    (chain : List nsh_table) : Fin NSH_HASH_SIZE → List nsh_table :=
  fun m => if m = n then chain else t m

/-! ## Forwarding table -/

/-- The bucket `nsh_table_head` selects.  The argument `hash` stands for the
kernel function `hash_32 (·, NSH_HASH_BITS)` of `linux/hash.h`. -/
def nsh_table_head (hash : Nat → Fin NSH_HASH_SIZE) (key : Nat) : Fin NSH_HASH_SIZE :=
  hash key

/-- The scan of `nsh_find_table`: the first entry of the chain with the key. -/
def nsh_find_table (hash : Nat → Fin NSH_HASH_SIZE) (nnet : nsh_net) (key : Nat) :
    Option nsh_table :=
  (nnet.nsh_table (nsh_table_head hash key)).find? (fun nt => key == nt.key)

/-- The function `nsh_add_table`.  The argument `kmalloc_ok` is the outcome of
the allocation; the result is the return value and the table afterwards. -/
def nsh_add_table (hash : Nat → Fin NSH_HASH_SIZE) (kmalloc_ok : Bool)
    (nnet : nsh_net) (key : Nat) (rdev : Option Nat) (rdst : Option nsh_dst) :
    Int × nsh_net :=
  if ¬ kmalloc_ok then (-ENOMEM, nnet)
  else
    let nt : nsh_table :=
      { key := key, spi := key >>> 8, si := key &&& 0x000000FF,
        rdev := rdev, rdst := rdst }
    let head := nsh_table_head hash key
    (0, { nnet with nsh_table := set_bucket nnet.nsh_table head (nt :: nnet.nsh_table head) })

/-- The function `nsh_delete_table`: the pointer `nt` designates the node at
position `i` of the chain of bucket `n`, which `hlist_del_rcu` unlinks. -/
def nsh_delete_table (nnet : nsh_net) (n : Fin NSH_HASH_SIZE) (i : Nat) : nsh_net :=
  { nnet with nsh_table := set_bucket nnet.nsh_table n ((nnet.nsh_table n).eraseIdx i) }

/-- The body of the inner loop of `nsh_dellink`:
`if (nt->rdev == ndev) nt->rdev = NULL`. -/
def dellink_entry (ndev : Nat) (nt : nsh_table) : nsh_table :=
  if nt.rdev = some ndev then { nt with rdev := none } else nt

/-- The table sweep of `nsh_dellink`: the loop over `n` from 0 to
`NSH_HASH_SIZE`, each step walking the chain of bucket `n`. -/
def nsh_dellink_sweep (t : Fin NSH_HASH_SIZE → List nsh_table) (ndev : Nat) :
    Fin NSH_HASH_SIZE → List nsh_table :=
  (List.finRange NSH_HASH_SIZE).foldl
    (fun acc n => set_bucket acc n ((acc n).map (dellink_entry ndev))) t

/-- The function `nsh_dellink` on the module state: the table sweep, then
`list_del_rcu` of the device. -/
def nsh_dellink (nnet : nsh_net) (ndev : Nat) : nsh_net :=
  { nsh_table := nsh_dellink_sweep nnet.nsh_table ndev,
    dev_list := nnet.dev_list.erase ndev }

/-! ## Packet buffers and the host kernel -/

/-- The part of `struct sk_buff` the module uses: the socket the buffer
belongs to (`skb->sk`, `none` for `NULL`), the device (`skb->dev`), the length
`skb->len`, and the bytes from `skb->data` to the end of the buffer. -/
structure sk_buff where
  sk : Option Nat
  dev : Nat
  len : Nat
  data : List Nat
deriving DecidableEq, Repr

/-- The kernel helper `__skb_push` followed by the stores that fill the pushed
header: `skb->data` moves back over `hdr`, `skb->len` grows by its size. -/
def __skb_push (skb : sk_buff) (hdr : List Nat) : sk_buff :=
  { skb with len := (skb.len + hdr.length) % 2 ^ 32, data := hdr ++ skb.data }

/-- The kernel helper `__skb_pull`: `skb->len -= len; skb->data += len`, with
no check of `len` against the buffer; `skb->len` is an `unsigned int`. -/
def __skb_pull (skb : sk_buff) (len : Nat) : sk_buff :=
  { skb with len := (skb.len + 2 ^ 32 - len % 2 ^ 32) % 2 ^ 32, data := skb.data.drop len }

/-- The four bytes of a 32-bit value, most significant first. -/
def be_bytes (v : Nat) : List Nat :=
  [(v >>> 24) % 256, (v >>> 16) % 256, (v >>> 8) % 256, v % 256]

/-- The bytes a store of the 32-bit value `v` leaves in memory, for a CPU of
the given byte order. -/
def store32 (big_endian : Bool) (v : Nat) : List Nat :=
  if big_endian then be_bytes v else (be_bytes v).reverse

/-- The 32-bit value a load reads from the first four bytes of `bs` (a byte
beyond the list reads as 0), for a CPU of the given byte order. -/
def load32 (big_endian : Bool) (bs : List Nat) : Nat :=
  let b0 := bs.getD 0 0
  let b1 := bs.getD 1 0
  let b2 := bs.getD 2 0
  let b3 := bs.getD 3 0
  if big_endian then (b0 <<< 24) + (b1 <<< 16) + (b2 <<< 8) + b3
  else (b3 <<< 24) + (b2 <<< 16) + (b1 <<< 8) + b0

/-- The kernel helper `htonl`: the value whose bytes in memory are those of
`v` in network order. -/
def htonl (big_endian : Bool) (v : Nat) : Nat :=
  load32 big_endian (be_bytes v)

/-- The services of the host kernel the module calls; none of them is part of
the repository.  `hash_32` stands for `hash_32 (·, NSH_HASH_BITS)`;
`big_endian` is the byte order of the CPU; `ip_route_output_key daddr saddr`
tells whether a route is found; `skb_cow_head` gives the error code (0 on
success); `udp_tunnel_xmit_skb` gives the return value of the transmit and the
buffer as the transport leaves it. -/
structure Kernel where
  hash_32 : Nat → Fin NSH_HASH_SIZE
  big_endian : Bool
  ip_route_output_key : Nat → Nat → Bool
  skb_cow_head : sk_buff → Nat → Int
  udp_tunnel_xmit_skb : sk_buff → Int × sk_buff

/-- The counters of `struct pcpu_sw_netstats`, 64 bits each. -/
structure pcpu_sw_netstats where
  rx_packets : Nat
  rx_bytes : Nat
  tx_packets : Nat
  tx_bytes : Nat
deriving DecidableEq, Repr

/-- The counters of `dev->stats` the module writes. -/
structure net_device_stats where
  tx_errors : Nat
  tx_carrier_errors : Nat
  tx_dropped : Nat
deriving DecidableEq, Repr

/-- One call of `udp_tunnel_xmit_skb`: the buffer handed over and the
arguments of the call. -/
structure udp_tunnel_call where
  skb : sk_buff
  src : Nat
  dst : Nat
  tos : Nat
  ttl : Nat
  df : Nat
  src_port : Nat
  dst_port : Nat
deriving DecidableEq, Repr

/-- The state the packet paths read and write.  It holds one network namespace,
to which every socket and every device belongs: the module state `nnet`, the
counters `dev->tstats` and `dev->stats` of every device, the object the local
pointer `tx_stats` of `nsh_xmit` refers to (the source never assigns it), the
buffers given to `netif_rx`, and the calls of `udp_tunnel_xmit_skb`, both in
the order they happen. -/
structure World where
  nnet : nsh_net
  tstats : Nat → pcpu_sw_netstats
  stats : Nat → net_device_stats
  tx_stats : pcpu_sw_netstats
  netif_rx : List sk_buff
  udp_tunnel : List udp_tunnel_call

/-! ## Ingress -/

/-- The function `nsh_recv`.  The result is `none` when the function
dereferences `NULL`, otherwise the return value, the buffer and the state
afterwards.  Its first statement, the initialiser
`nnet = net_generic (sock_net (skb->sk), nsh_net_id)`, reads the namespace
through `skb->sk` before any check of the header, so it dereferences `NULL`
when the buffer has no socket; with a socket it gives the module state of the
one namespace of the state.  `nbh` is the first four bytes of the buffer and
`nph` the next four. -/
def nsh_recv (k : Kernel) (w : World) (skb : sk_buff) : Option (Int × sk_buff × World) :=
  match skb.sk with
  | none => none
  | some _ =>
    let nnet := w.nnet
    let nbh_flags := skb.data.getD 0 0
    let nbh_length := skb.data.getD 1 0
    let nph_spisi := load32 k.big_endian (skb.data.drop sizeof_nsh_base_hdr)
    if ! NSH_BASE_CHECK_VERSION nbh_flags 0 then some (-1, skb, w)
    else if NSH_BASE_OAM nbh_flags ≠ 0 then some (-1, skb, w)
    else if NSH_BASE_OAM nbh_flags ≠ 0 then some (-1, skb, w)
    else
      match nsh_find_table k.hash_32 nnet nph_spisi with
      | none => none
      | some nt =>
        match nt.rdev with
        | none => some (-1, skb, w)
        | some rdev =>
          let hdrlen := (NSH_BASE_LENGTH nbh_length) <<< 2
          let skb1 := __skb_pull skb hdrlen
          let st := w.tstats rdev
          let st1 : pcpu_sw_netstats :=
            { st with rx_packets := (st.rx_packets + 1) % 2 ^ 64,
                      rx_bytes := (st.rx_bytes + 1) % 2 ^ 64 }
          let w1 : World :=
            { w with tstats := fun d => if d = rdev then st1 else w.tstats d,
                     netif_rx := w.netif_rx ++ [skb1] }
          some (0, skb1, w1)

/-- The function `nsh_vxlan_udp_encap_recv`, called with `skb->data` at the
UDP header.  Its argument `sk` is not used: the source passes only the buffer
on to `nsh_recv`, which reads `skb->sk`.  `pskb_may_pull` succeeds when the buffer holds `VXLAN_HLEN`
bytes; `vxh` is the header after the UDP header, `vx_flags` its first word. -/
def nsh_vxlan_udp_encap_recv (k : Kernel) (w : World) (skb : sk_buff) :
    Option (Int × sk_buff × World) :=
  if ¬ (VXLAN_HLEN ≤ skb.len) then some (1, skb, w)
  else
    let vx_flags := load32 k.big_endian (skb.data.drop sizeof_udphdr)
    if vx_flags ≠ (VXLAN_GPE_FLAGS ||| VXLAN_GPE_PROTO_NSH) then some (1, skb, w)
    else nsh_recv k w (__skb_pull skb VXLAN_HLEN)

/-! ## Egress -/

/-- The function `nsh_xmit_vxlan`.  The header `struct vxlanhdr` is the word
`vx_flags` followed by the word `vx_vni`. -/
def nsh_xmit_vxlan (k : Kernel) (w : World) (skb : sk_buff) (ndev : nsh_dev)
    (nt : nsh_table) : Option (Int × sk_buff × World) :=
  match nt.rdst with
  | none => none
  | some rdst =>
    if ¬ k.ip_route_output_key rdst.remote_ip rdst.local_ip then
      let st := w.stats ndev.dev
      let st1 : net_device_stats :=
        { st with tx_carrier_errors := (st.tx_carrier_errors + 1) % 2 ^ 64,
                  tx_dropped := (st.tx_dropped + 1) % 2 ^ 64 }
      some (-NETDEV_TX_OK, skb,
        { w with stats := fun d => if d = ndev.dev then st1 else w.stats d })
    else if k.skb_cow_head skb NSH_VXLAN_IPV4_HEADROOM ≠ 0 then
      some (-NETDEV_TX_OK, skb, w)
    else
      let vxh := store32 k.big_endian (htonl k.big_endian (VXLAN_GPE_FLAGS ||| VXLAN_GPE_PROTO_NSH))
        ++ store32 k.big_endian rdst.vni
      let skb1 := __skb_push skb vxh
      let call : udp_tunnel_call :=
        { skb := skb1, src := rdst.local_ip, dst := rdst.remote_ip, tos := 0,
          ttl := NSH_VXLAN_TTL, df := 0, src_port := NSH_VXLAN_PORT,
          dst_port := NSH_VXLAN_PORT }
      let r := k.udp_tunnel_xmit_skb skb1
      some (r.1, r.2, { w with udp_tunnel := w.udp_tunnel ++ [call] })

/-- The label `update_stats` of `nsh_xmit`: the counters behind `tx_stats`. -/
def nsh_xmit_update_stats (w : World) (skb : sk_buff) : World :=
  { w with tx_stats :=
      { w.tx_stats with tx_packets := (w.tx_stats.tx_packets + 1) % 2 ^ 64,
                        tx_bytes := (w.tx_stats.tx_bytes + skb.len) % 2 ^ 64 } }

/-- The label `tx_err` of `nsh_xmit`: `dev->stats.tx_errors++`. -/
def nsh_xmit_tx_err (w : World) (dev : Nat) : World :=
  let st := w.stats dev
  { w with stats := fun d =>
      if d = dev then { st with tx_errors := (st.tx_errors + 1) % 2 ^ 64 } else w.stats d }

/-- The part of `nsh_xmit` from the comment `add NSH MD-TYPE 2 without
metadata` on: the base header is pushed first and the path header after it,
then `nsh_xmit_vxlan` is called. -/
def nsh_xmit_encap (k : Kernel) (w : World) (skb : sk_buff) (ndev : nsh_dev)
    (nt : nsh_table) : Option (Int × World) :=
  if k.skb_cow_head skb NSH_MDTYPE2_0_HLEN ≠ 0 then
    some (NETDEV_TX_OK, nsh_xmit_tx_err w ndev.dev)
  else
    let nbh := [0, NSH_MDTYPE2_0_HLEN >>> 2, NSH_BASE_MDTYPE2, NSH_BASE_PROTO_ETH]
    let skb1 := __skb_push skb nbh
    let skb2 := __skb_push skb1 (store32 k.big_endian ndev.key)
    match nsh_xmit_vxlan k w skb2 ndev nt with
    | none => none
    | some (rc, skb3, w3) =>
      if rc ≠ NETDEV_TX_OK then some (NETDEV_TX_OK, nsh_xmit_tx_err w3 ndev.dev)
      else some (NETDEV_TX_OK, nsh_xmit_update_stats w3 skb3)

/-- The function `nsh_xmit` for the device `ndev` (`netdev_priv (dev)`).  The
result is `none` when the function dereferences `NULL`, otherwise the return
value and the state afterwards. -/
def nsh_xmit (k : Kernel) (w : World) (skb : sk_buff) (ndev : nsh_dev) :
    Option (Int × World) :=
  match nsh_find_table k.hash_32 w.nnet ndev.key with
  | none => some (NETDEV_TX_OK, w)
  | some nt =>
    if nt.rdev.isSome then
      match nsh_recv k w skb with
      | none => none
      | some (_, skb1, w1) => some (NETDEV_TX_OK, nsh_xmit_update_stats w1 skb1)
    else
      match nt.rdst with
      | none => nsh_xmit_encap k w skb ndev nt
      | some rdst =>
        if rdst.encap_type = NSH_ENCAP_TYPE_VXLAN then
          match nsh_xmit_vxlan k w skb ndev nt with
          | none => none
          | some (_, skb1, w1) => nsh_xmit_encap k w1 skb1 ndev nt
        else some (NETDEV_TX_OK, nsh_xmit_tx_err w ndev.dev)

/-! ## Reachable tables and observations -/

/-- The tables the control operations can build from the empty table with a
given hash function: insert with any arguments and either outcome of the
allocation, removal of any node, and the unbinding of any device. -/
inductive Reachable (hash : Nat → Fin NSH_HASH_SIZE) : nsh_net → Prop
  | init : Reachable hash nshkmod_init_net
  | add (nnet : nsh_net) (kmalloc_ok : Bool) (key : Nat) (rdev : Option Nat)
      (rdst : Option nsh_dst) :
      Reachable hash nnet → Reachable hash (nsh_add_table hash kmalloc_ok nnet key rdev rdst).2
  | delete (nnet : nsh_net) (n : Fin NSH_HASH_SIZE) (i : Nat) :
      Reachable hash nnet → Reachable hash (nsh_delete_table nnet n i)
  | dellink (nnet : nsh_net) (ndev : Nat) :
      Reachable hash nnet → Reachable hash (nsh_dellink nnet ndev)

/-- The tables the control operations can build when every insert is called
with at least one of `rdev` and `rdst` equal to `NULL`, the contract the
comment in `nsh_add_table` leaves to the caller. -/
inductive ReachableOneTarget (hash : Nat → Fin NSH_HASH_SIZE) : nsh_net → Prop
  | init : ReachableOneTarget hash nshkmod_init_net
  | add (nnet : nsh_net) (kmalloc_ok : Bool) (key : Nat) (rdev : Option Nat)
      (rdst : Option nsh_dst) :
      (rdev.isSome && rdst.isSome) = false →
      ReachableOneTarget hash nnet →
      ReachableOneTarget hash (nsh_add_table hash kmalloc_ok nnet key rdev rdst).2
  | delete (nnet : nsh_net) (n : Fin NSH_HASH_SIZE) (i : Nat) :
      ReachableOneTarget hash nnet → ReachableOneTarget hash (nsh_delete_table nnet n i)
  | dellink (nnet : nsh_net) (ndev : Nat) :
      ReachableOneTarget hash nnet → ReachableOneTarget hash (nsh_dellink nnet ndev)

/-- The property of C5 for one entry: exactly one of `rdev` and `rdst` is not
`NULL`. -/
def exactly_one_target (nt : nsh_table) : Bool :=
  nt.rdev.isSome != nt.rdst.isSome

/-- The weaker property: `rdev` and `rdst` are not both set. -/
def at_most_one_target (nt : nsh_table) : Bool :=
  !(nt.rdev.isSome && nt.rdst.isSome)

/-- The header `nsh_xmit_vxlan` pushes: the word `htonl (VXLAN_GPE_FLAGS |
VXLAN_GPE_PROTO_NSH)`, then the word `vni` of the target. -/
def vxlan_header (big_endian : Bool) (vni : Nat) : List Nat :=
  store32 big_endian (htonl big_endian (VXLAN_GPE_FLAGS ||| VXLAN_GPE_PROTO_NSH))
    ++ store32 big_endian vni

/-- The base header `nsh_xmit` writes: flags 0, length in words, MD type 2,
next protocol Ethernet. -/
def nsh_base_header : List Nat :=
  [0, NSH_MDTYPE2_0_HLEN >>> 2, NSH_BASE_MDTYPE2, NSH_BASE_PROTO_ETH]

/-- The packet ingress expects for the path key `key` and the inner frame
`frame` on a host of the given byte order: base header (length 2 words, MD
type 2, next protocol Ethernet), path header, frame. -/
def nsh_packet (big_endian : Bool) (key : Nat) (frame : sk_buff) : sk_buff :=
  __skb_push frame (nsh_base_header ++ store32 big_endian key)

/-- The buffer `nsh_vxlan_udp_encap_recv` gets for a buffer handed to
`udp_tunnel_xmit_skb`: the UDP header of the transport (ports `NSH_VXLAN_PORT`,
length, checksum 0) in front of the payload, on the receiving device 9, with
`skb->sk` as the receiving stack left it (`sk`). -/
def udp_deliver (sk : Option Nat) (payload : sk_buff) : sk_buff :=
  { sk := sk, dev := 9, len := (payload.len + sizeof_udphdr) % 2 ^ 32,
    data := [NSH_VXLAN_PORT >>> 8, NSH_VXLAN_PORT % 256, NSH_VXLAN_PORT >>> 8,
             NSH_VXLAN_PORT % 256, ((payload.len + sizeof_udphdr) >>> 8) % 256,
             (payload.len + sizeof_udphdr) % 256, 0, 0] ++ payload.data }

/-- The buffers `nsh_xmit` hands to `udp_tunnel_xmit_skb`, in order; empty
when `nsh_xmit` dereferences `NULL`. -/
def handed (k : Kernel) (w : World) (skb : sk_buff) (ndev : nsh_dev) : List sk_buff :=
  match nsh_xmit k w skb ndev with
  | none => []
  | some r => r.2.udp_tunnel.map (fun c => c.skb)

/-- What an observer of the devices sees of a state: the buffers given to
`netif_rx`, the buffers handed to `udp_tunnel_xmit_skb`, and the receive
counters of the devices 1 and 2. -/
def observe (w : World) : List sk_buff × List sk_buff × (Nat × Nat) × (Nat × Nat) :=
  (w.netif_rx, w.udp_tunnel.map (fun c => c.skb),
    ((w.tstats 1).rx_packets, (w.tstats 1).rx_bytes),
    ((w.tstats 2).rx_packets, (w.tstats 2).rx_bytes))

/-! ## Instances: a concrete host, tables, devices and frames -/

/-- The function `hash_32 (·, NSH_HASH_BITS)` as written in `linux/hash.h` of
kernel 3.19: the product with `GOLDEN_RATIO_PRIME_32` in 32 bits, of which the
high `NSH_HASH_BITS` bits are kept.  The value is below `NSH_HASH_SIZE`, so
the reduction that builds the index changes nothing.  It is used only where a
statement needs one concrete hash function. -/
def hash_32_linux (val : Nat) : Fin NSH_HASH_SIZE :=
  ⟨(((val * 0x9e370001) % 2 ^ 32) >>> (32 - NSH_HASH_BITS)) % NSH_HASH_SIZE,
    Nat.mod_lt _ (by decide)⟩

/-- The table after `nsh_add_table (0x00012305, 1, NULL)` on the empty table. -/
def net_one_entry : nsh_net :=
  (nsh_add_table hash_32_linux true nshkmod_init_net 0x00012305 (some 1) none).2

/-- The table after the device 1 of `net_one_entry` is unbound. -/
def net_unbound : nsh_net := nsh_dellink net_one_entry 1

/-- The table after an insert on the empty table with both targets given. -/
def net_both_targets : nsh_net :=
  (nsh_add_table hash_32_linux true nshkmod_init_net 0x00012305 (some 1)
    (some { encap_type := NSH_ENCAP_TYPE_VXLAN, vni := 100, remote_ip := 0x0A000002,
            local_ip := 0x0A000001 })).2

/-- A host for the instances: the hash function of kernel 3.19, a route to
every address, room for every header; the byte order and the behaviour of the
UDP transport are left open. -/
def linux_host (big_endian : Bool) (xmit : sk_buff → Int × sk_buff) : Kernel :=
  { hash_32 := hash_32_linux, big_endian := big_endian,
    ip_route_output_key := fun _ _ => true, skb_cow_head := fun _ _ => 0,
    udp_tunnel_xmit_skb := xmit }

/-- A transport that reports 0 and leaves the buffer as it was handed over. -/
def xmit_keep (skb : sk_buff) : Int × sk_buff := (0, skb)

/-- The state with the given table, every counter 0, nothing received and
nothing sent. -/
def world_of (nnet : nsh_net) : World :=
  { nnet := nnet,
    tstats := fun _ => { rx_packets := 0, rx_bytes := 0, tx_packets := 0, tx_bytes := 0 },
    stats := fun _ => { tx_errors := 0, tx_carrier_errors := 0, tx_dropped := 0 },
    tx_stats := { rx_packets := 0, rx_bytes := 0, tx_packets := 0, tx_bytes := 0 },
    netif_rx := [], udp_tunnel := [] }

/-- The table with one entry, key 0x00012305 to the local device 1, and a
second entry, key 0x0A0B0C0D to the local device 2. -/
def net_two_local : nsh_net :=
  (nsh_add_table hash_32_linux true net_one_entry 0x0A0B0C0D (some 2) none).2

/-- An NSH packet whose first byte is 0x60 (version 1, O bit set), without a
socket: `skb->sk` is `NULL`, as in a buffer the UDP stack hands to the tunnel
receive function. -/
def pkt_bad_header : sk_buff :=
  { sk := none, dev := 9, len := 8,
    data := [0x60, 0x02, 0x02, 0x03, 0x00, 0x01, 0x23, 0x05] }

/-- The datagram that carries the bytes of `pkt_bad_header` to a big-endian
host: UDP header, VXLAN header with the flags word 0x0C000004 and VNI 100,
then the packet; `skb->sk` is `NULL`. -/
def dgram_bad_header : sk_buff :=
  { sk := none, dev := 9, len := 24,
    data := [0xEA, 0x60, 0xEA, 0x60, 0x00, 0x18, 0x00, 0x00,
             0x0C, 0x00, 0x00, 0x04, 0x00, 0x00, 0x00, 0x64,
             0x60, 0x02, 0x02, 0x03, 0x00, 0x01, 0x23, 0x05] }

/-- An NSH packet on a big-endian host, with the socket 3 attached: base header (length 2 words, MD type
2, next protocol Ethernet), path header 0x00012305, and a 14-byte frame. -/
def pkt_nsh : sk_buff :=
  { sk := some 3, dev := 9, len := 22,
    data := [0x00, 0x02, 0x02, 0x03, 0x00, 0x01, 0x23, 0x05,
             0x02, 0x00, 0x00, 0x00, 0x00, 0x01, 0x02, 0x00, 0x00, 0x00, 0x00, 0x02,
             0x08, 0x00] }

/-- The same packet with the length field of the base header set to 63 words
(252 bytes), more than the 22 bytes of the buffer. -/
def pkt_long_header : sk_buff :=
  { sk := some 3, dev := 9, len := 22,
    data := [0x00, 0x3F, 0x02, 0x03, 0x00, 0x01, 0x23, 0x05,
             0x02, 0x00, 0x00, 0x00, 0x00, 0x01, 0x02, 0x00, 0x00, 0x00, 0x00, 0x02,
             0x08, 0x00] }

/-- The remote target of the scenario: VXLAN encapsulation, VNI 100, remote
address 10.0.0.2, local address 10.0.0.1. -/
def dst_remote : nsh_dst :=
  { encap_type := NSH_ENCAP_TYPE_VXLAN, vni := 100, remote_ip := 0x0A000002,
    local_ip := 0x0A000001 }

/-- The table with one entry, key 0x00012305 to the remote target. -/
def net_remote : nsh_net :=
  (nsh_add_table hash_32_linux true nshkmod_init_net 0x00012305 none (some dst_remote)).2

/-- The device 5, bound to the key 0x00012305. -/
def dev_K : nsh_dev := { dev := 5, key := 0x00012305 }

/-- A broadcast Ethernet frame of 18 bytes sent from the device 5 through the
socket 3. -/
def frame_bcast : sk_buff :=
  { sk := some 3, dev := 5, len := 18,
    data := [0xFF, 0xFF, 0xFF, 0xFF, 0xFF, 0xFF, 0x02, 0x00, 0x00, 0x00, 0x00, 0x02,
             0x08, 0x00, 0xDE, 0xAD, 0xBE, 0xEF] }

/-- An Ethernet frame of 18 bytes sent from the device 5 through the socket 3
to the address 00:02:00:00:0A:0B, from the address 0C:0D:00:00:00:02. -/
def frame_ucast : sk_buff :=
  { sk := some 3, dev := 5, len := 18,
    data := [0x00, 0x02, 0x00, 0x00, 0x0A, 0x0B, 0x0C, 0x0D, 0x00, 0x00, 0x00, 0x02,
             0x08, 0x00, 0xDE, 0xAD, 0xBE, 0xEF] }

/-- What the receiving host shows after `nsh_vxlan_udp_encap_recv` gets the
buffer `p` from the transport, with `skb->sk` equal to `sk`: the return value
and the buffers given to `netif_rx`, or `none` when the function dereferences
`NULL`.  The receiving host has the table `net_one_entry`, which maps
0x00012305 to the local device 1. -/
def round_trip (big_endian : Bool) (xmit : sk_buff → Int × sk_buff) (sk : Option Nat)
    (p : sk_buff) : Option (Int × List sk_buff) :=
  (nsh_vxlan_udp_encap_recv (linux_host big_endian xmit) (world_of net_one_entry)
    (udp_deliver sk p)).map (fun r => (r.1, r.2.2.netif_rx))

/-! ## Lemmas on the table -/

theorem set_bucket_same (t : Fin NSH_HASH_SIZE → List nsh_table) (n : Fin NSH_HASH_SIZE)
    (chain : List nsh_table) : set_bucket t n chain n = chain := by
  simp [set_bucket]

theorem set_bucket_other (t : Fin NSH_HASH_SIZE → List nsh_table) (n m : Fin NSH_HASH_SIZE)
    (chain : List nsh_table) (h : m ≠ n) : set_bucket t n chain m = t m := by
  simp [set_bucket, h]

theorem dellink_entry_idem (ndev : Nat) (nt : nsh_table) :
    dellink_entry ndev (dellink_entry ndev nt) = dellink_entry ndev nt := by
  unfold dellink_entry
  by_cases h : nt.rdev = some ndev <;> simp [h]

theorem dellink_entry_rdev_ne (ndev : Nat) (nt : nsh_table) :
    (dellink_entry ndev nt).rdev ≠ some ndev := by
  unfold dellink_entry
  by_cases h : nt.rdev = some ndev <;> simp [h]

theorem dellink_entry_key (ndev : Nat) (nt : nsh_table) :
    (dellink_entry ndev nt).key = nt.key := by
  unfold dellink_entry
  by_cases h : nt.rdev = some ndev <;> simp [h]

theorem dellink_entry_rdst (ndev : Nat) (nt : nsh_table) :
    (dellink_entry ndev nt).rdst = nt.rdst := by
  unfold dellink_entry
  by_cases h : nt.rdev = some ndev <;> simp [h]

theorem dellink_entry_of_ne (ndev : Nat) (nt : nsh_table) (h : nt.rdev ≠ some ndev) :
    dellink_entry ndev nt = nt := by
  simp [dellink_entry, h]

theorem dellink_entry_of_eq (ndev : Nat) (nt : nsh_table) (h : nt.rdev = some ndev) :
    (dellink_entry ndev nt).rdev = none := by
  simp [dellink_entry, h]

/-- The loop of the sweep over any list of bucket numbers: a bucket in the
list has had its chain walked, the others are untouched. -/
theorem sweep_loop (ndev : Nat) (l : List (Fin NSH_HASH_SIZE)) :
    ∀ (t : Fin NSH_HASH_SIZE → List nsh_table) (n : Fin NSH_HASH_SIZE),
      l.foldl (fun acc m => set_bucket acc m ((acc m).map (dellink_entry ndev))) t n
        = if n ∈ l then (t n).map (dellink_entry ndev) else t n := by
  induction l with
  | nil => intro t n; simp
  | cons a l ih =>
    intro t n
    rw [List.foldl_cons, ih]
    by_cases hna : n = a
    · subst hna
      simp only [set_bucket_same, List.mem_cons, true_or, if_true]
      split
      · rw [List.map_map]
        apply List.map_congr_left
        intro e _
        exact dellink_entry_idem ndev e
      · rfl
    · rw [set_bucket_other _ _ _ _ hna]
      simp [hna]

/-- The sweep walks every chain: each bucket ends as its chain with the loop
body applied to every entry. -/
theorem nsh_dellink_sweep_bucket (t : Fin NSH_HASH_SIZE → List nsh_table) (ndev : Nat)
    (n : Fin NSH_HASH_SIZE) :
    nsh_dellink_sweep t ndev n = (t n).map (dellink_entry ndev) := by
  unfold nsh_dellink_sweep
  rw [sweep_loop]
  simp [List.mem_finRange]

theorem nsh_dellink_bucket (nnet : nsh_net) (ndev : Nat) (n : Fin NSH_HASH_SIZE) :
    (nsh_dellink nnet ndev).nsh_table n = (nnet.nsh_table n).map (dellink_entry ndev) := by
  have h := nsh_dellink_sweep_bucket nnet.nsh_table ndev n
  unfold nsh_dellink
  rw [← h]

theorem nsh_add_table_bucket_same (hash : Nat → Fin NSH_HASH_SIZE) (nnet : nsh_net)
    (key : Nat) (rdev : Option Nat) (rdst : Option nsh_dst) :
    (nsh_add_table hash true nnet key rdev rdst).2.nsh_table (nsh_table_head hash key)
      = { key := key, spi := key >>> 8, si := key &&& 0x000000FF, rdev := rdev, rdst := rdst }
          :: nnet.nsh_table (nsh_table_head hash key) := by
  simp [nsh_add_table, set_bucket_same]

theorem nsh_add_table_bucket_other (hash : Nat → Fin NSH_HASH_SIZE) (nnet : nsh_net)
    (key : Nat) (rdev : Option Nat) (rdst : Option nsh_dst) (n : Fin NSH_HASH_SIZE)
    (hn : n ≠ nsh_table_head hash key) :
    (nsh_add_table hash true nnet key rdev rdst).2.nsh_table n = nnet.nsh_table n := by
  simp [nsh_add_table, set_bucket_other _ _ _ _ hn]

theorem nsh_add_table_fail (hash : Nat → Fin NSH_HASH_SIZE) (nnet : nsh_net)
    (key : Nat) (rdev : Option Nat) (rdst : Option nsh_dst) :
    nsh_add_table hash false nnet key rdev rdst = (-ENOMEM, nnet) := by
  simp [nsh_add_table]

theorem find_map_dellink (ndev key : Nat) (chain : List nsh_table) :
    (chain.map (dellink_entry ndev)).find? (fun nt => key == nt.key)
      = (chain.find? (fun nt => key == nt.key)).map (dellink_entry ndev) := by
  induction chain with
  | nil => rfl
  | cons a l ih =>
    simp only [List.map_cons, List.find?_cons, dellink_entry_key]
    cases h : (key == a.key)
    · simpa using ih
    · simp

/-! ## Claims on the forwarding table -/

/-- C3. Lookup after insert: for every table state, every Path Key `K` and
every local device `D`, when `nsh_add_table (K, D, NULL)` returns 0 the lookup
`nsh_find_table (K)` on the table it leaves returns the entry just linked: its
key is `K`, its local device is `D` and its remote destination is `NULL`. -/
theorem nsh_find_table_after_add (hash : Nat → Fin NSH_HASH_SIZE) (kmalloc_ok : Bool)
    (nnet : nsh_net) (K D : Nat)
    (h : (nsh_add_table hash kmalloc_ok nnet K (some D) none).1 = 0) :
    nsh_find_table hash (nsh_add_table hash kmalloc_ok nnet K (some D) none).2 K
      = some { key := K, spi := K >>> 8, si := K &&& 0x000000FF, rdev := some D,
               rdst := none } := by
  cases kmalloc_ok with
  | false => simp [nsh_add_table, ENOMEM] at h
  | true =>
    unfold nsh_find_table
    rw [nsh_add_table_bucket_same]
    simp

/-- The instance of C3 on the empty table, key 0x00012305 and device 7. -/
theorem nsh_find_table_after_add_witness :
    (nsh_add_table hash_32_linux true nshkmod_init_net 0x00012305 (some 7) none).1 = 0
    ∧ nsh_find_table hash_32_linux
          (nsh_add_table hash_32_linux true nshkmod_init_net 0x00012305 (some 7) none).2
          0x00012305
        = some { key := 0x00012305, spi := 0x00012305 >>> 8, si := 0x00012305 &&& 0x000000FF,
                 rdev := some 7, rdst := none } :=
  ⟨by decide, nsh_find_table_after_add hash_32_linux true nshkmod_init_net 0x00012305 7
    (by decide)⟩

/-- C4, as stated, fails: on a table that already holds an entry with key
0x00012305, `nsh_add_table` with the same key returns 0, and the chain of the
key then holds two entries with that key. -/
theorem nsh_add_table_accepts_duplicate :
    (nsh_find_table hash_32_linux net_one_entry 0x00012305).isSome = true
    ∧ (nsh_add_table hash_32_linux true net_one_entry 0x00012305 (some 2) none).1 = 0
    ∧ ((nsh_add_table hash_32_linux true net_one_entry 0x00012305 (some 2) none).2.nsh_table
        (hash_32_linux 0x00012305)).map (fun nt => nt.key) = [0x00012305, 0x00012305] := by
  decide

/-- C4, amended: `nsh_add_table` makes no check for an entry with the same
key.  When the allocation succeeds, on every table (one that already holds an
entry with key `K` included) it returns 0 and links the new entry at the head
of the chain of `K`, in front of every entry the chain held, leaving the other
chains and the device list as they were, so every entry of the table is still
in its chain; `nsh_find_table (K)` then returns the new entry, whatever the
chain held before (an older entry with key `K` stays behind it and is no
longer the one returned), and `nsh_find_table` of every other key returns what
it returned before.  When the allocation fails it returns `-ENOMEM` and leaves
the table unchanged. -/
theorem nsh_add_table_always_links (hash : Nat → Fin NSH_HASH_SIZE) (nnet : nsh_net)
    (K : Nat) (rdev : Option Nat) (rdst : Option nsh_dst) :
    ((nsh_add_table hash true nnet K rdev rdst).1 = 0
      ∧ (nsh_add_table hash true nnet K rdev rdst).2.nsh_table (nsh_table_head hash K)
          = { key := K, spi := K >>> 8, si := K &&& 0x000000FF, rdev := rdev, rdst := rdst }
              :: nnet.nsh_table (nsh_table_head hash K)
      ∧ (∀ n, n ≠ nsh_table_head hash K →
          (nsh_add_table hash true nnet K rdev rdst).2.nsh_table n = nnet.nsh_table n)
      ∧ (nsh_add_table hash true nnet K rdev rdst).2.dev_list = nnet.dev_list
      ∧ (∀ (n : Fin NSH_HASH_SIZE) (old : nsh_table), old ∈ nnet.nsh_table n →
          old ∈ (nsh_add_table hash true nnet K rdev rdst).2.nsh_table n)
      ∧ nsh_find_table hash (nsh_add_table hash true nnet K rdev rdst).2 K
          = some { key := K, spi := K >>> 8, si := K &&& 0x000000FF, rdev := rdev,
                   rdst := rdst }
      ∧ (∀ K2 : Nat, K2 ≠ K →
          nsh_find_table hash (nsh_add_table hash true nnet K rdev rdst).2 K2
            = nsh_find_table hash nnet K2))
    ∧ nsh_add_table hash false nnet K rdev rdst = (-ENOMEM, nnet) := by
  refine ⟨⟨?_, nsh_add_table_bucket_same hash nnet K rdev rdst,
    fun n hn => nsh_add_table_bucket_other hash nnet K rdev rdst n hn, ?_, ?_, ?_, ?_⟩,
    nsh_add_table_fail hash nnet K rdev rdst⟩
  · simp [nsh_add_table]
  · simp [nsh_add_table]
  · intro n old hold
    by_cases hn : n = nsh_table_head hash K
    · subst hn
      rw [nsh_add_table_bucket_same]
      exact List.mem_cons_of_mem _ hold
    · rw [nsh_add_table_bucket_other hash nnet K rdev rdst n hn]
      exact hold
  · unfold nsh_find_table
    rw [nsh_add_table_bucket_same, List.find?_cons]
    simp
  · intro K2 hK2
    unfold nsh_find_table
    by_cases hn : nsh_table_head hash K2 = nsh_table_head hash K
    · rw [hn, nsh_add_table_bucket_same, List.find?_cons]
      have hne : (K2 == K) = false := by simpa using hK2
      simp only [hne]
    · rw [nsh_add_table_bucket_other hash nnet K rdev rdst _ hn]

/-- The table `net_one_entry` after a second insert with the key 0x00012305,
now to the local device 2. -/
theorem nsh_add_table_shadows_instance :
    nsh_find_table hash_32_linux net_one_entry 0x00012305
      = some { key := 0x00012305, spi := 0x000123, si := 0x05, rdev := some 1, rdst := none }
    ∧ nsh_find_table hash_32_linux
        (nsh_add_table hash_32_linux true net_one_entry 0x00012305 (some 2) none).2 0x00012305
      = some { key := 0x00012305, spi := 0x000123, si := 0x05, rdev := some 2, rdst := none }
    ∧ (nsh_add_table hash_32_linux true net_one_entry 0x00012305 (some 2) none).2.nsh_table
        (hash_32_linux 0x00012305)
      = [{ key := 0x00012305, spi := 0x000123, si := 0x05, rdev := some 2, rdst := none },
         { key := 0x00012305, spi := 0x000123, si := 0x05, rdev := some 1, rdst := none }] := by
  decide

/-- C5, as stated, fails: the table reached by an insert of a local entry and
the unbinding of its device holds an entry with neither target, and the table
reached by an insert with both arguments given holds an entry with both. -/
theorem exactly_one_target_not_invariant :
    (Reachable hash_32_linux net_unbound
      ∧ net_unbound.nsh_table (hash_32_linux 0x00012305)
          = [{ key := 0x00012305, spi := 0x000123, si := 0x05, rdev := none, rdst := none }]
      ∧ (net_unbound.nsh_table (hash_32_linux 0x00012305)).all exactly_one_target = false)
    ∧ (Reachable hash_32_linux net_both_targets
      ∧ net_both_targets.nsh_table (hash_32_linux 0x00012305)
          = [{ key := 0x00012305, spi := 0x000123, si := 0x05, rdev := some 1,
               rdst := some { encap_type := NSH_ENCAP_TYPE_VXLAN, vni := 100,
                              remote_ip := 0x0A000002, local_ip := 0x0A000001 } }]
      ∧ (net_both_targets.nsh_table (hash_32_linux 0x00012305)).all exactly_one_target
          = false) := by
  refine ⟨⟨?_, ?_, ?_⟩, ?_, ?_, ?_⟩
  · exact Reachable.dellink _ 1 (Reachable.add _ true _ _ _ Reachable.init)
  · rw [net_unbound, nsh_dellink_bucket]
    decide
  · rw [net_unbound, nsh_dellink_bucket]
    decide
  · exact Reachable.add _ true _ _ _ Reachable.init
  · decide
  · decide

/-- C5, amended: in every table state reachable from the empty table through
`nsh_add_table` called with at least one of `rdev` and `rdst` equal to `NULL`,
`nsh_delete_table` and the table sweep of `nsh_dellink`, no entry has both
target fields populated (an entry whose device was unbound has neither). -/
theorem at_most_one_target_invariant (hash : Nat → Fin NSH_HASH_SIZE) (nnet : nsh_net)
    (h : ReachableOneTarget hash nnet) :
    ∀ (n : Fin NSH_HASH_SIZE) (nt : nsh_table),
      nt ∈ nnet.nsh_table n → at_most_one_target nt = true := by
  induction h with
  | init => intro n nt hm; simp [nshkmod_init_net] at hm
  | add nnet ok key rdev rdst hone _ ih =>
    intro n nt hm
    cases ok with
    | false =>
      rw [nsh_add_table_fail] at hm
      exact ih n nt hm
    | true =>
      by_cases hn : n = nsh_table_head hash key
      · subst hn
        rw [nsh_add_table_bucket_same, List.mem_cons] at hm
        rcases hm with rfl | hm
        · cases rdev <;> cases rdst <;> simp_all [at_most_one_target]
        · exact ih _ nt hm
      · rw [nsh_add_table_bucket_other _ _ _ _ _ _ hn] at hm
        exact ih n nt hm
  | delete nnet b i _ ih =>
    intro n nt hm
    by_cases hn : n = b
    · subst hn
      simp only [nsh_delete_table, set_bucket_same] at hm
      exact ih n nt (List.mem_of_mem_eraseIdx hm)
    · apply ih n nt
      simpa [nsh_delete_table, set_bucket_other _ _ _ _ hn] using hm
  | dellink nnet ndev _ ih =>
    intro n nt hm
    rw [nsh_dellink_bucket, List.mem_map] at hm
    obtain ⟨e, he, rfl⟩ := hm
    have h1 := ih n e he
    unfold dellink_entry
    by_cases hd : e.rdev = some ndev
    · simp [hd, at_most_one_target]
    · simpa [hd] using h1

/-- The instance of the amended C5 on the table `net_unbound`. -/
theorem at_most_one_target_invariant_witness :
    ReachableOneTarget hash_32_linux net_unbound
    ∧ ∀ (n : Fin NSH_HASH_SIZE) (nt : nsh_table),
        nt ∈ net_unbound.nsh_table n → at_most_one_target nt = true :=
  ⟨ReachableOneTarget.dellink _ 1
      (ReachableOneTarget.add _ true _ _ _ (by decide) ReachableOneTarget.init),
    at_most_one_target_invariant hash_32_linux net_unbound
      (ReachableOneTarget.dellink _ 1
        (ReachableOneTarget.add _ true _ _ _ (by decide) ReachableOneTarget.init))⟩

/-- C8. Device unbinding: after the table sweep of `nsh_dellink (D)` no entry
of any bucket has `D` as its local device; every chain keeps its length and
order, the entry at each position keeps its key and remote destination, has
its local device cleared when it was `D`, and is unchanged when it was not;
and a key whose lookup gave an entry with local device `D` now gives the
entry with the same key and remote destination and no local device. -/
theorem nsh_dellink_unbinds (hash : Nat → Fin NSH_HASH_SIZE) (nnet : nsh_net) (D : Nat) :
    (∀ (n : Fin NSH_HASH_SIZE) (nt : nsh_table),
        nt ∈ (nsh_dellink nnet D).nsh_table n → nt.rdev ≠ some D)
    ∧ (∀ n : Fin NSH_HASH_SIZE,
        ((nsh_dellink nnet D).nsh_table n).length = (nnet.nsh_table n).length)
    ∧ (∀ (n : Fin NSH_HASH_SIZE) (i : Nat) (old : nsh_table),
        (nnet.nsh_table n)[i]? = some old →
        ∃ new, ((nsh_dellink nnet D).nsh_table n)[i]? = some new
          ∧ new.key = old.key ∧ new.rdst = old.rdst
          ∧ (old.rdev = some D → new.rdev = none)
          ∧ (old.rdev ≠ some D → new = old))
    ∧ (∀ (K : Nat) (old : nsh_table),
        nsh_find_table hash nnet K = some old → old.rdev = some D →
        ∃ new, nsh_find_table hash (nsh_dellink nnet D) K = some new
          ∧ new.key = old.key ∧ new.rdst = old.rdst ∧ new.rdev = none) := by
  refine ⟨?_, ?_, ?_, ?_⟩
  · intro n nt hm
    rw [nsh_dellink_bucket, List.mem_map] at hm
    obtain ⟨e, _, rfl⟩ := hm
    exact dellink_entry_rdev_ne D e
  · intro n
    rw [nsh_dellink_bucket, List.length_map]
  · intro n i old hold
    refine ⟨dellink_entry D old, ?_, dellink_entry_key D old, dellink_entry_rdst D old,
      dellink_entry_of_eq D old, dellink_entry_of_ne D old⟩
    rw [nsh_dellink_bucket, List.getElem?_map, hold, Option.map_some']
  · intro K old hfind hrdev
    refine ⟨dellink_entry D old, ?_, dellink_entry_key D old, dellink_entry_rdst D old,
      dellink_entry_of_eq D old hrdev⟩
    unfold nsh_find_table at hfind ⊢
    rw [nsh_dellink_bucket, find_map_dellink, hfind, Option.map_some']

/-! ## Claims on ingress -/

/-- The first statement of `nsh_recv` reads the namespace through `skb->sk`:
on a buffer without a socket the function dereferences `NULL`, whatever the
header holds. -/
theorem nsh_recv_no_socket (k : Kernel) (w : World) (skb : sk_buff) (hsk : skb.sk = none) :
    nsh_recv k w skb = none := by
  unfold nsh_recv
  simp only [hsk]

/-- On a buffer with a socket, when the first byte of the base header has a
version field (bits 0xC0) other than 0 or has the O bit 0x20 set, `nsh_recv`
returns -1 and leaves the buffer and the whole state (table, counters,
delivered frames) as they were. -/
theorem nsh_recv_rejects_with_socket (k : Kernel) (w : World) (skb : sk_buff) (s f : Nat)
    (hsk : skb.sk = some s)
    (hf : skb.data[0]? = some f) (hbad : f &&& 0xC0 ≠ 0 ∨ f &&& 0x20 ≠ 0) :
    nsh_recv k w skb = some (-1, skb, w) := by
  have h0 : skb.data.getD 0 0 = f := by
    simp [List.getD, hf]
  unfold nsh_recv
  simp only [hsk, h0, NSH_BASE_CHECK_VERSION, NSH_BASE_OAM]
  by_cases hv : f &&& 0xC0 = 0
  · have ho : f &&& 0x20 ≠ 0 := by
      rcases hbad with h | h
      · exact absurd hv h
      · exact h
    simp [hv, ho]
  · simp [hv]

/-- When the packet passes the checks of the base header and the table has no
entry for its path key, `nsh_recv` dereferences `NULL`: on a buffer with a
socket it evaluates `nt->rdev` with `nt` equal to `NULL`, on a buffer without
one it has read `skb->sk` already. -/
theorem nsh_recv_miss_null (k : Kernel) (w : World) (skb : sk_buff)
    (hv : skb.data.getD 0 0 &&& 0xC0 = 0) (ho : skb.data.getD 0 0 &&& 0x20 = 0)
    (hmiss : nsh_find_table k.hash_32 w.nnet
      (load32 k.big_endian (skb.data.drop sizeof_nsh_base_hdr)) = none) :
    nsh_recv k w skb = none := by
  unfold nsh_recv
  cases hsk : skb.sk with
  | none => rfl
  | some s =>
    simp only [NSH_BASE_CHECK_VERSION, NSH_BASE_OAM, hv, ho, hmiss]
    rfl

/-- When the packet has a socket and passes the checks of the base header, and
the entry of its path key has no local device, `nsh_recv` returns -1 and
changes nothing. -/
theorem nsh_recv_no_rdev (k : Kernel) (w : World) (skb : sk_buff) (s : Nat) (nt : nsh_table)
    (hsk : skb.sk = some s)
    (hv : skb.data.getD 0 0 &&& 0xC0 = 0) (ho : skb.data.getD 0 0 &&& 0x20 = 0)
    (hfind : nsh_find_table k.hash_32 w.nnet
      (load32 k.big_endian (skb.data.drop sizeof_nsh_base_hdr)) = some nt)
    (hdev : nt.rdev = none) :
    nsh_recv k w skb = some (-1, skb, w) := by
  unfold nsh_recv
  simp only [hsk, NSH_BASE_CHECK_VERSION, NSH_BASE_OAM, hv, ho, hfind, hdev]
  rfl

/-- When `nsh_recv` accepts a packet (returns 0), the buffer it ends with is
the one given to `netif_rx` last, and its bytes are those of the buffer it
started with after the first `(length & 0x3F) << 2`. -/
theorem nsh_recv_accept_strips (k : Kernel) (w w1 : World) (skb skb1 : sk_buff)
    (h : nsh_recv k w skb = some (0, skb1, w1)) :
    skb1.data = skb.data.drop ((NSH_BASE_LENGTH (skb.data.getD 1 0)) <<< 2)
    ∧ w1.netif_rx = w.netif_rx ++ [skb1] := by
  unfold nsh_recv at h
  simp only at h
  repeat' split at h
  all_goals first
    | (simp at h; done)
    | (simp only [Option.some.injEq, Prod.mk.injEq, true_and] at h
       obtain ⟨h1, h2⟩ := h
       subst h2
       subst h1
       simp [__skb_pull])

/-- C7, at the failing input: the packet `pkt_bad_header` has version 1 and
the O bit set in its first byte and no socket, as a buffer of the tunnel path
has.  `nsh_recv` dereferences `NULL` on it (result `none`) for either byte
order, called directly or through `nsh_vxlan_udp_encap_recv` on the datagram
`dgram_bad_header`, instead of returning -1.  With the socket 3 attached the
same packet is rejected with -1 and nothing changes. -/
theorem nsh_recv_bad_header_without_socket :
    nsh_recv (linux_host true xmit_keep) (world_of net_one_entry) pkt_bad_header = none
    ∧ nsh_recv (linux_host false xmit_keep) (world_of net_one_entry) pkt_bad_header = none
    ∧ nsh_vxlan_udp_encap_recv (linux_host true xmit_keep) (world_of net_one_entry)
        dgram_bad_header = none
    ∧ nsh_recv (linux_host true xmit_keep) (world_of net_one_entry)
        { pkt_bad_header with sk := some 3 }
      = some (-1, { pkt_bad_header with sk := some 3 }, world_of net_one_entry) := by
  refine ⟨rfl, rfl, rfl, rfl⟩

/-- C9, at the failing input: on the empty table the packet `pkt_nsh`, which
has a socket and passes the checks of the base header, makes `nsh_recv`
dereference `NULL` (result `none`), for either byte order of the host. -/
theorem nsh_recv_miss_dereferences_null :
    nsh_recv (linux_host true xmit_keep) (world_of nshkmod_init_net) pkt_nsh = none
    ∧ nsh_recv (linux_host false xmit_keep) (world_of nshkmod_init_net) pkt_nsh = none := by
  constructor <;> rfl

/-- C10, at the failing input: the packet `pkt_long_header` has 22 bytes and a
header length of 252; `nsh_recv` on the table that maps its key to the local
device 1 returns 0, counts it for the device and gives `netif_rx` a buffer
whose length has wrapped to 2^32 - 230. -/
theorem nsh_recv_accepts_overlong_header :
    (nsh_recv (linux_host true xmit_keep) (world_of net_one_entry) pkt_long_header).map
        (fun r => (r.1, r.2.1, observe r.2.2))
      = some (0, { sk := some 3, dev := 9, len := 4294967066, data := [] },
          [{ sk := some 3, dev := 9, len := 4294967066, data := [] }], [], (1, 1), (0, 0)) := by
  rfl

/-! ## Claims on egress -/

/-- One call of `nsh_xmit_vxlan` with a remote target, a route and room for
the header: the header is pushed, the buffer handed to the transport, and the
return value and the buffer are those the transport gives back. -/
theorem nsh_xmit_vxlan_sends (k : Kernel) (w : World) (skb : sk_buff) (ndev : nsh_dev)
    (nt : nsh_table) (rdst : nsh_dst) (hrdst : nt.rdst = some rdst)
    (hroute : k.ip_route_output_key rdst.remote_ip rdst.local_ip = true)
    (hcow : ∀ s n, k.skb_cow_head s n = 0) :
    nsh_xmit_vxlan k w skb ndev nt
      = some ((k.udp_tunnel_xmit_skb (__skb_push skb (vxlan_header k.big_endian rdst.vni))).1,
          (k.udp_tunnel_xmit_skb (__skb_push skb (vxlan_header k.big_endian rdst.vni))).2,
          { w with udp_tunnel := w.udp_tunnel ++
              [{ skb := __skb_push skb (vxlan_header k.big_endian rdst.vni),
                 src := rdst.local_ip, dst := rdst.remote_ip, tos := 0, ttl := NSH_VXLAN_TTL,
                 df := 0, src_port := NSH_VXLAN_PORT, dst_port := NSH_VXLAN_PORT }] }) := by
  unfold nsh_xmit_vxlan
  simp only [hrdst, hroute, hcow, vxlan_header]
  simp

/-- What `nsh_xmit` does for a device whose entry is a remote VXLAN target
with a route: it calls `nsh_xmit_vxlan` twice.  The first call hands over the
frame with only the VXLAN header in front; the second hands over what the
transport left of that buffer with the base header, then the path header,
then a second VXLAN header pushed in front.  Both go to the remote address on
port `NSH_VXLAN_PORT`, and nothing is given to `netif_rx`. -/
theorem nsh_xmit_remote_calls (k : Kernel) (w : World) (skb : sk_buff) (ndev : nsh_dev)
    (nt : nsh_table) (rdst : nsh_dst)
    (hfind : nsh_find_table k.hash_32 w.nnet ndev.key = some nt)
    (hrdev : nt.rdev = none) (hrdst : nt.rdst = some rdst)
    (hencap : rdst.encap_type = NSH_ENCAP_TYPE_VXLAN)
    (hroute : k.ip_route_output_key rdst.remote_ip rdst.local_ip = true)
    (hcow : ∀ s n, k.skb_cow_head s n = 0) :
    ∃ w1, nsh_xmit k w skb ndev = some (NETDEV_TX_OK, w1)
      ∧ w1.netif_rx = w.netif_rx
      ∧ w1.udp_tunnel = w.udp_tunnel ++
          [{ skb := __skb_push skb (vxlan_header k.big_endian rdst.vni),
             src := rdst.local_ip, dst := rdst.remote_ip, tos := 0, ttl := NSH_VXLAN_TTL,
             df := 0, src_port := NSH_VXLAN_PORT, dst_port := NSH_VXLAN_PORT },
           { skb := __skb_push (__skb_push (__skb_push
                (k.udp_tunnel_xmit_skb (__skb_push skb (vxlan_header k.big_endian rdst.vni))).2
                nsh_base_header) (store32 k.big_endian ndev.key))
                (vxlan_header k.big_endian rdst.vni),
             src := rdst.local_ip, dst := rdst.remote_ip, tos := 0, ttl := NSH_VXLAN_TTL,
             df := 0, src_port := NSH_VXLAN_PORT, dst_port := NSH_VXLAN_PORT }] := by
  unfold nsh_xmit
  simp only [hfind, hrdev, hrdst, hencap, Option.isSome_none, Bool.false_eq_true, if_false,
    if_true, nsh_xmit_vxlan_sends k _ _ ndev nt rdst hrdst hroute hcow]
  unfold nsh_xmit_encap
  simp only [hcow, ne_eq, not_true_eq_false, if_false,
    nsh_xmit_vxlan_sends k _ _ ndev nt rdst hrdst hroute hcow, nsh_base_header]
  split
  · exact ⟨_, rfl, rfl, by simp [nsh_xmit_tx_err]⟩
  · exact ⟨_, rfl, rfl, by simp [nsh_xmit_update_stats]⟩

theorem find_remote :
    nsh_find_table hash_32_linux net_remote 0x00012305
      = some { key := 0x00012305, spi := 0x000123, si := 0x05, rdev := none,
               rdst := some dst_remote } := by
  decide

theorem vxlan_header_bytes (big_endian : Bool) (vni : Nat) :
    vxlan_header big_endian vni = [0x0C, 0x00, 0x00, 0x04] ++ store32 big_endian vni := by
  cases big_endian <;> rfl

/-- The buffers `nsh_xmit` hands over in the scenario, for either byte order
and any behaviour of the transport. -/
theorem handed_remote (big_endian : Bool) (xmit : sk_buff → Int × sk_buff) :
    handed (linux_host big_endian xmit) (world_of net_remote) frame_ucast dev_K
      = [__skb_push frame_ucast (vxlan_header big_endian 100),
         __skb_push (__skb_push (__skb_push
            (xmit (__skb_push frame_ucast (vxlan_header big_endian 100))).2
            nsh_base_header) (store32 big_endian 0x00012305))
            (vxlan_header big_endian 100)] := by
  obtain ⟨w1, h1, _, h3⟩ := nsh_xmit_remote_calls (linux_host big_endian xmit)
    (world_of net_remote) frame_ucast dev_K _ dst_remote find_remote rfl rfl rfl rfl
    (fun _ _ => rfl)
  unfold handed
  rw [h1]
  simp only [h3]
  rfl

/-- C2, at the failing input (key 0x00012305, remote target VNI 100 at
10.0.0.2, frame `frame_ucast`), for either byte order and any behaviour of the
transport: `nsh_xmit` hands two buffers to the transport, not one.  The first
is the VXLAN header followed at once by the frame, with no NSH header; the
second is the VXLAN header, then the path header, then the base header, then
what the transport left of the first buffer.  Neither is the payload of the
claim (VXLAN header, base header, path header, frame). -/
theorem nsh_xmit_remote_wire_format :
    ∀ (big_endian : Bool) (xmit : sk_buff → Int × sk_buff),
      (handed (linux_host big_endian xmit) (world_of net_remote) frame_ucast dev_K).map
          (fun p => p.data)
        = [[0x0C, 0x00, 0x00, 0x04] ++ store32 big_endian 100 ++ frame_ucast.data,
           [0x0C, 0x00, 0x00, 0x04] ++ store32 big_endian 100
             ++ store32 big_endian 0x00012305 ++ [0x00, 0x02, 0x02, 0x03]
             ++ (xmit { sk := some 3, dev := 5, len := 26,
                        data := [0x0C, 0x00, 0x00, 0x04] ++ store32 big_endian 100
                          ++ frame_ucast.data }).2.data]
      ∧ (handed (linux_host big_endian xmit) (world_of net_remote) frame_ucast dev_K).map
          (fun p => p.data)
        ≠ [[0x0C, 0x00, 0x00, 0x04] ++ store32 big_endian 100
             ++ [0x00, 0x02, 0x02, 0x03] ++ store32 big_endian 0x00012305
             ++ frame_ucast.data] := by
  intro big_endian xmit
  rw [handed_remote, vxlan_header_bytes]
  constructor
  · cases big_endian <;> simp [__skb_push, nsh_base_header, store32, be_bytes, frame_ucast,
      NSH_MDTYPE2_0_HLEN, sizeof_nsh_base_hdr, sizeof_nsh_path_hdr, NSH_BASE_MDTYPE2,
      NSH_BASE_PROTO_ETH]
  · simp

theorem find_base_header_word :
    nsh_find_table hash_32_linux net_one_entry 0x00020203 = none := by
  decide

theorem find_frame_word :
    nsh_find_table hash_32_linux net_one_entry 0x0A0B0C0D = none := by
  decide

/-- Decapsulation refuses with 1, changing nothing, a buffer whose flags word
differs from `VXLAN_GPE_FLAGS | VXLAN_GPE_PROTO_NSH` as the host reads it. -/
theorem encap_recv_bad_flags (k : Kernel) (w : World) (skb : sk_buff)
    (h : load32 k.big_endian (skb.data.drop sizeof_udphdr)
      ≠ (VXLAN_GPE_FLAGS ||| VXLAN_GPE_PROTO_NSH)) :
    nsh_vxlan_udp_encap_recv k w skb = some (1, skb, w) := by
  unfold nsh_vxlan_udp_encap_recv
  by_cases hlen : VXLAN_HLEN ≤ skb.len
  · simp only [hlen, not_true_eq_false, if_false, h, ne_eq, not_false_eq_true, if_true]
  · simp only [hlen, not_false_eq_true, if_true]

/-- Decapsulation refuses with 1 a buffer shorter than `VXLAN_HLEN`. -/
theorem encap_recv_short (k : Kernel) (w : World) (skb : sk_buff)
    (h : ¬ VXLAN_HLEN ≤ skb.len) :
    nsh_vxlan_udp_encap_recv k w skb = some (1, skb, w) := by
  unfold nsh_vxlan_udp_encap_recv
  simp only [h, not_false_eq_true, if_true]

/-- Decapsulation of a buffer of at least `VXLAN_HLEN` bytes with the expected
flags word strips `VXLAN_HLEN` bytes and goes on with `nsh_recv`. -/
theorem encap_recv_pass (k : Kernel) (w : World) (skb : sk_buff)
    (hlen : VXLAN_HLEN ≤ skb.len)
    (h : load32 k.big_endian (skb.data.drop sizeof_udphdr)
      = (VXLAN_GPE_FLAGS ||| VXLAN_GPE_PROTO_NSH)) :
    nsh_vxlan_udp_encap_recv k w skb = nsh_recv k w (__skb_pull skb VXLAN_HLEN) := by
  unfold nsh_vxlan_udp_encap_recv
  simp only [hlen, not_true_eq_false, if_false, h, ne_eq]

theorem load32_cons (big_endian : Bool) (a b c d : Nat) (rest : List Nat) :
    load32 big_endian (a :: b :: c :: d :: rest) = load32 big_endian [a, b, c, d] := by
  cases big_endian <;> rfl

/-- The second buffer of the scenario at the receiving host, whatever the
transport left behind the headers. -/
theorem round_trip_second (big_endian : Bool) (xmit : sk_buff → Int × sk_buff)
    (sk : Option Nat) (x : sk_buff) :
    round_trip big_endian xmit sk
        (__skb_push (__skb_push (__skb_push x nsh_base_header)
          (store32 big_endian 0x00012305)) (vxlan_header big_endian 100)) = none
    ∨ round_trip big_endian xmit sk
        (__skb_push (__skb_push (__skb_push x nsh_base_header)
          (store32 big_endian 0x00012305)) (vxlan_header big_endian 100)) = some (1, []) := by
  rw [vxlan_header_bytes]
  unfold round_trip
  cases big_endian
  · right
    rw [encap_recv_bad_flags]
    · rfl
    · have hflags : load32 false (List.drop sizeof_udphdr (udp_deliver sk (__skb_push
          (__skb_push (__skb_push x nsh_base_header) (store32 false 0x00012305))
          ([0x0C, 0x00, 0x00, 0x04] ++ store32 false 100))).data) = 0x0400000C := by
        show load32 false (0x0C :: 0x00 :: 0x00 :: 0x04 :: _) = _
        rw [load32_cons]
        decide
      show load32 false _ ≠ _
      rw [hflags]
      decide
  · by_cases hlen : VXLAN_HLEN ≤ (udp_deliver sk (__skb_push (__skb_push (__skb_push x
        nsh_base_header) (store32 true 0x00012305)) ([0x0C, 0x00, 0x00, 0x04]
        ++ store32 true 100))).len
    · left
      have hflags : load32 true (List.drop sizeof_udphdr (udp_deliver sk (__skb_push
          (__skb_push (__skb_push x nsh_base_header) (store32 true 0x00012305))
          ([0x0C, 0x00, 0x00, 0x04] ++ store32 true 100))).data)
          = VXLAN_GPE_FLAGS ||| VXLAN_GPE_PROTO_NSH := by
        show load32 true (0x0C :: 0x00 :: 0x00 :: 0x04 :: _) = _
        rw [load32_cons]
        decide
      have hdata : (__skb_pull (udp_deliver sk (__skb_push (__skb_push (__skb_push x
          nsh_base_header) (store32 true 0x00012305)) ([0x0C, 0x00, 0x00, 0x04]
          ++ store32 true 100))) VXLAN_HLEN).data
          = 0x00 :: 0x01 :: 0x23 :: 0x05 :: 0x00 :: 0x02 :: 0x02 :: 0x03 :: x.data := by
        simp [__skb_pull, udp_deliver, __skb_push, store32, be_bytes, nsh_base_header,
          VXLAN_HLEN, sizeof_vxlanhdr, sizeof_udphdr, NSH_MDTYPE2_0_HLEN, sizeof_nsh_base_hdr,
          sizeof_nsh_path_hdr, NSH_BASE_MDTYPE2, NSH_BASE_PROTO_ETH]
      have hkey : load32 true (List.drop sizeof_nsh_base_hdr
          (0x00 :: 0x01 :: 0x23 :: 0x05 :: 0x00 :: 0x02 :: 0x02 :: 0x03 :: x.data))
          = 0x00020203 := by
        show load32 true (0x00 :: 0x02 :: 0x02 :: 0x03 :: _) = _
        rw [load32_cons]
        decide
      rw [encap_recv_pass _ _ _ hlen hflags, nsh_recv_miss_null]
      · rfl
      · rw [hdata]; simp
      · rw [hdata]; simp
      · rw [hdata]
        show nsh_find_table hash_32_linux net_one_entry (load32 true _) = none
        rw [hkey]
        exact find_base_header_word
    · right
      rw [encap_recv_short _ _ _ hlen]
      rfl

/-- The first buffer of the scenario at the receiving host. -/
theorem round_trip_first (big_endian : Bool) (xmit : sk_buff → Int × sk_buff)
    (sk : Option Nat) :
    round_trip big_endian xmit sk (__skb_push frame_ucast (vxlan_header big_endian 100))
      = (if big_endian then none else some (1, [])) := by
  rw [vxlan_header_bytes]
  unfold round_trip
  cases big_endian
  · rw [encap_recv_bad_flags]
    · rfl
    · show load32 false (0x0C :: 0x00 :: 0x00 :: 0x04 :: _) ≠ _
      rw [load32_cons]
      decide
  · have hflags : load32 (linux_host true xmit).big_endian (List.drop sizeof_udphdr
        (udp_deliver sk (__skb_push frame_ucast ([0x0C, 0x00, 0x00, 0x04] ++ store32 true 100))).data)
        = VXLAN_GPE_FLAGS ||| VXLAN_GPE_PROTO_NSH := by
      show load32 true (0x0C :: 0x00 :: 0x00 :: 0x04 :: _) = _
      rw [load32_cons]
      decide
    have hlen : VXLAN_HLEN ≤ (udp_deliver sk (__skb_push frame_ucast
        ([0x0C, 0x00, 0x00, 0x04] ++ store32 true 100))).len := by
      show VXLAN_HLEN ≤ 34
      decide
    have hdata : (__skb_pull (udp_deliver sk (__skb_push frame_ucast
        ([0x0C, 0x00, 0x00, 0x04] ++ store32 true 100))) VXLAN_HLEN).data
        = frame_ucast.data := by
      simp [__skb_pull, udp_deliver, __skb_push, store32, be_bytes, VXLAN_HLEN,
        sizeof_vxlanhdr, sizeof_udphdr]
    rw [encap_recv_pass _ _ _ hlen hflags, nsh_recv_miss_null]
    · rfl
    · rw [hdata]; decide
    · rw [hdata]; decide
    · rw [hdata]
      exact find_frame_word

/-- C1, at the failing input (key 0x00012305, remote target VNI 100 at
10.0.0.2, frame `frame_ucast`, a receiving host whose table maps 0x00012305
to the local device 1), for either byte order, any behaviour of the transport
and any value `sk` of `skb->sk` at the receiving host.  Neither of the two
buffers egress hands to the transport is accepted by decapsulation, and no
frame is delivered.  The first, fed to `nsh_vxlan_udp_encap_recv`, is refused
with 1 on a little-endian host (the flags word is compared without a byte
swap) and makes `nsh_recv` dereference `NULL` on a big-endian host (with a
socket the frame itself is read as the NSH header and its bytes 4 to 7 match
no entry; without one `skb->sk` is read first).  The second is refused with 1
or ends in the same dereference; the path key ingress reads from it is the
word of the base header, not 0x00012305. -/
theorem nsh_round_trip_fails :
    ∀ (big_endian : Bool) (xmit : sk_buff → Int × sk_buff) (sk : Option Nat),
      ∃ p1 p2,
        handed (linux_host big_endian xmit) (world_of net_remote) frame_ucast dev_K = [p1, p2]
        ∧ round_trip big_endian xmit sk p1 = (if big_endian then none else some (1, []))
        ∧ (round_trip big_endian xmit sk p2 = none
            ∨ round_trip big_endian xmit sk p2 = some (1, []))
        ∧ load32 big_endian
            ((__skb_pull (udp_deliver sk p2) VXLAN_HLEN).data.drop sizeof_nsh_base_hdr)
            = load32 big_endian [0x00, 0x02, 0x02, 0x03]
        ∧ load32 big_endian [0x00, 0x02, 0x02, 0x03] ≠ 0x00012305 := by
  intro big_endian xmit sk
  refine ⟨_, _, handed_remote big_endian xmit, round_trip_first big_endian xmit sk,
    round_trip_second big_endian xmit sk _, ?_, ?_⟩
  · rw [vxlan_header_bytes]
    cases big_endian
    · show load32 false (0x00 :: 0x02 :: 0x02 :: 0x03 :: _) = _
      exact load32_cons _ _ _ _ _ _
    · show load32 true (0x00 :: 0x02 :: 0x02 :: 0x03 :: _) = _
      exact load32_cons _ _ _ _ _ _
  · cases big_endian <;> decide

/-- C6, at the failing input: the table maps 0x00012305 to the local device 1
(and 0x0A0B0C0D to the local device 2), and the device 5 is bound to
0x00012305.  `nsh_xmit` of the broadcast frame delivers nothing and counts
nothing; `nsh_xmit` of `frame_ucast` on a big-endian host delivers the frame
without its first 8 bytes and counts it for the device 2, chosen by bytes 4
to 7 of the frame.  Ingress of the NSH packet with path key 0x00012305 around
the same frames delivers each frame whole and counts it for the device 1. -/
theorem nsh_xmit_loopback_differs :
    (nsh_xmit (linux_host true xmit_keep) (world_of net_two_local) frame_bcast dev_K).map
        (fun r => observe r.2)
      = some ([], [], (0, 0), (0, 0))
    ∧ (nsh_recv (linux_host true xmit_keep) (world_of net_two_local)
          (nsh_packet true 0x00012305 frame_bcast)).map (fun r => observe r.2.2)
      = some ([frame_bcast], [], (1, 1), (0, 0))
    ∧ (nsh_xmit (linux_host true xmit_keep) (world_of net_two_local) frame_ucast dev_K).map
        (fun r => observe r.2)
      = some ([{ sk := some 3, dev := 5, len := 10,
                 data := [0x00, 0x00, 0x00, 0x02, 0x08, 0x00, 0xDE, 0xAD, 0xBE, 0xEF] }],
          [], (0, 0), (1, 1))
    ∧ (nsh_recv (linux_host true xmit_keep) (world_of net_two_local)
          (nsh_packet true 0x00012305 frame_ucast)).map (fun r => observe r.2.2)
      = some ([frame_ucast], [], (1, 1), (0, 0)) := by
  refine ⟨?_, ?_, ?_, ?_⟩ <;> rfl

end Nshkmod
